import Mathlib

/-!
Shallow embedding of the `tomlenv` library (src/src/lib.rs, src/src/env/*,
src/src/error/*) and verification of its specification claims.

External collaborators (the TOML text parser, the file system, the process
environment-variable table, the CLI argument matcher) are modelled as explicit
function parameters, following the spec's description of them as injected
dependencies. Rust `String` is modelled by Lean `String`, `Result<T, Error>`
by `Except Error T`, and `BTreeMap<Environment, T>` by the finite map
`Environment → Option T` (the key type has exactly five inhabitants).
-/

namespace Tomlenv

/-- The built-in environment hierarchy, `src/src/env/environment.rs` lines
17-29: `Prod -> Stage -> Test -> Dev -> Local` in declaration order. -/
inductive Environment where
  | Prod
  | Stage
  | Test
  | Dev
  | Local
deriving DecidableEq, Repr, Fintype

/-- Index of a variant in declaration order; Rust's `derive(Ord)` orders the
variants by exactly this index. -/
def Environment.toNat : Environment → Nat
  | .Prod => 0
  | .Stage => 1
  | .Test => 2
  | .Dev => 3
  | .Local => 4

/-- The strict order on `Environment` induced by `derive(PartialOrd, Ord)`:
declaration order `Prod < Stage < Test < Dev < Local`. -/
def Environment.ltb (a b : Environment) : Bool :=
  a.toNat < b.toNat

/-- `Display for Environment` (`environment.rs` lines 66-77): the canonical
lowercase spelling of each variant. -/
def Environment.render : Environment → String
  | .Prod => "prod"
  | .Stage => "stage"
  | .Test => "test"
  | .Dev => "dev"
  | .Local => "local"

/-- Error codes, `src/src/error/codes.rs` lines 14-33. -/
inductive ErrCode where
  | Client
  | Env
  | Framework
  | HttpClient
  | Io
  | Parse
  | Server
  | Unauthorized
  | Unknown
deriving DecidableEq, Repr

/-- `From<ErrCode> for &str` (`codes.rs` lines 55-70). -/
def ErrCode.toStr : ErrCode → String
  | .Client => "client"
  | .Env => "env"
  | .Framework => "framework"
  | .HttpClient => "httpclient"
  | .Io => "io"
  | .Parse => "parse"
  | .Server => "server"
  | .Unauthorized => "unauthorized"
  | .Unknown => "unknown"

/-- `std::env::VarError`: the variable is not present, or holds data that is
not valid unicode (carried here as its lossy string rendering). -/
inductive VarError where
  | notPresent
  | notUnicode (s : String)
deriving DecidableEq, Repr

/-- Error sources, `src/src/error/sources.rs` lines 52-61. The wrapped
lower-level errors of the external dependencies (`std::io::Error`,
`toml::de::Error`, `toml::ser::Error`) are carried as their message strings;
`std::env::VarError` is carried structurally. -/
inductive ErrSource where
  | Io (source : String)
  | TomlDe (source : String)
  | TomlSer (source : String)
  | Var (source : VarError)
deriving DecidableEq, Repr

/-- The library error, `src/src/error/mod.rs` lines 24-33. -/
structure Error where
  code : ErrCode
  reason : String
  description : String
  source : Option ErrSource
deriving DecidableEq, Repr

/-- `Error::new` (`mod.rs` lines 36-50): records the code and reason and
derives the description `"<code>: <reason>"`. -/
def Error.new (code : ErrCode) (reason : String) (source : Option ErrSource) : Error :=
  { code := code, reason := reason, description := code.toStr ++ ": " ++ reason,
    source := source }

/-- `Error::invalid_runtime_environment` (`mod.rs` lines 52-59). -/
def Error.invalid_runtime_environment (env : String) : Error :=
  Error.new .Env ("invalid runtime environment '" ++ env ++ "'") none

/-- `Error::invalid_current_environment` (`mod.rs` lines 61-67). -/
def Error.invalid_current_environment (var : String) : Error :=
  Error.new .Env ("invalid current environment '" ++ var ++ "'") none

/-- `From<std::env::VarError> for Error` (`sources.rs` lines 24-29). -/
def Error.fromVarError (inner : VarError) : Error :=
  Error.new .Env "There was an error processing your enviroment" (some (.Var inner))

/-- `From<std::io::Error> for Error` (`sources.rs` lines 30-35). -/
def Error.fromIoError (inner : String) : Error :=
  Error.new .Io "There was an error processing your request" (some (.Io inner))

/-- `From<toml::de::Error> for Error` (`sources.rs` lines 36-41). -/
def Error.fromTomlDeError (inner : String) : Error :=
  Error.new .Parse "There was an error deserializing TOML" (some (.TomlDe inner))

/-- `From<toml::ser::Error> for Error` (`sources.rs` lines 42-47). -/
def Error.fromTomlSerError (inner : String) : Error :=
  Error.new .Parse "There was an error serializing TOML" (some (.TomlSer inner))

/-- Display of a `VarError`, as `std::env::VarError`'s `Display` renders it. -/
def VarError.display : VarError → String
  | .notPresent => "environment variable not found"
  | .notUnicode s => "environment variable was not valid unicode: " ++ s

/-- `Display for ErrSource` (`sources.rs` lines 65-74): delegate to the
wrapped source's display. -/
def ErrSource.display : ErrSource → String
  | .Io s => s
  | .TomlDe s => s
  | .TomlSer s => s
  | .Var v => v.display

/-- `Display for Error` (`mod.rs` lines 80-92): the description followed by
the displays of the errors in the source chain (here at most one). -/
def Error.display (e : Error) : String :=
  e.description ++ (match e.source with
    | some s => s.display
    | none => "")

/-- `TryFrom<&str> for Environment` (`environment.rs` lines 79-92): exact
match against the five canonical spellings, otherwise
`Error::invalid_runtime_environment`. -/
def Environment.tryFromStr (env : String) : Except Error Environment :=
  if env = "prod" then .ok .Prod
  else if env = "stage" then .ok .Stage
  else if env = "test" then .ok .Test
  else if env = "dev" then .ok .Dev
  else if env = "local" then .ok .Local
  else .error (Error.invalid_runtime_environment env)

/-- `TryFrom<String> for Environment` (`environment.rs` lines 94-107): the
same exact match performed on the full slice `&env[..]` of the owned string. -/
def Environment.tryFromString (env : String) : Except Error Environment :=
  if env = "prod" then .ok .Prod
  else if env = "stage" then .ok .Stage
  else if env = "test" then .ok .Test
  else if env = "dev" then .ok .Dev
  else if env = "local" then .ok .Local
  else .error (Error.invalid_runtime_environment env)

/-- `Deserialize for Environment` (`environment.rs` lines 31-55): the visitor's
`visit_str` delegates to `TryFrom<&str>`, turning a failure into a serde
custom error carrying the error's display text. -/
def Environment.deserialize (value : String) : Except String Environment :=
  match Environment.tryFromStr value with
  | .ok e => .ok e
  | .error err => .error err.display

/-- The fragment of the TOML data model these claims exercise: string leaves
and tables (`[envs.<key>]` sub-tables and their string fields). The text-level
TOML codec itself is an external dependency of the repository and is passed to
the load operations as a parameter. -/
inductive Toml where
  | str (s : String)
  | table (entries : List (String × Toml))

/-- Model of `BTreeMap<Environment, T>`: a finite map on the five-variant key
type, as a function to `Option`. -/
abbrev EnvMap (T : Type) : Type := Environment → Option T

/-- The empty map. -/
def EnvMap.empty {T : Type} : EnvMap T := fun _ => none

/-- `BTreeMap::insert`: overwrite the binding at `k`. -/
def EnvMap.insert {T : Type} (m : EnvMap T) (k : Environment) (v : T) : EnvMap T :=
  fun q => if q = k then some v else m q

/-- `BTreeMap::get`. -/
def EnvMap.get {T : Type} (m : EnvMap T) (k : Environment) : Option T := m k

/-- The five keys in the total order `derive(Ord)` gives them (declaration
order): `BTreeMap` iteration visits present keys in exactly this order. -/
def envOrder : List Environment := [.Prod, .Stage, .Test, .Dev, .Local]

/-- Iteration over the map in ascending key order, as `BTreeMap` iterates. -/
def EnvMap.toList {T : Type} (m : EnvMap T) : List (Environment × T) :=
  envOrder.filterMap (fun k => (m k).map (fun v => (k, v)))

/-- `Environments` (`src/src/env/environments.rs` lines 98-105), specialised
to the built-in key type: a map of `Environment` to the caller's data. -/
structure Environments (T : Type) where
  envs : EnvMap T

/-- Deserialization of the `envs` map as serde's map visitor performs it:
each key string runs through `Environment`'s deserializer, each value
sub-document through the caller-supplied deserializer for `T`, and entries
are inserted left to right. The first failing entry aborts the whole load. -/
def deserializeEnvMapFrom {T : Type} (deV : Toml → Except String T)
    (acc : EnvMap T) : List (String × Toml) → Except String (EnvMap T)
  | [] => .ok acc
  | (ks, tv) :: rest =>
    match Environment.deserialize ks with
    | .error e => .error e
    | .ok k =>
      match deV tv with
      | .error e => .error e
      | .ok v => deserializeEnvMapFrom deV (acc.insert k v) rest

/-- Derived `Deserialize for Environments` applied to a decoded TOML tree:
the document must be a table whose `envs` field is a table (serde reports a
missing or ill-typed field; unknown extra fields are ignored), and the `envs`
table deserializes as a map. -/
def Environments.fromToml {T : Type} (deV : Toml → Except String T) :
    Toml → Except String (Environments T)
  | .table kvs =>
    match kvs.lookup "envs" with
    | some (.table entries) =>
      match deserializeEnvMapFrom deV EnvMap.empty entries with
      | .ok m => .ok ⟨m⟩
      | .error e => .error e
    | some _ => .error "invalid type for field envs"
    | none => .error "missing field envs"
  | _ => .error "invalid type: expected a table"

/-- `toml::from_str` as the load operations use it: run the external text
parser, then the typed deserialization; any failure of either stage is a
`toml::de::Error`, converted into the library error by
`From<toml::de::Error>` (code `Parse`). -/
def Environments.fromStr {T : Type} (parseText : String → Except String Toml)
    (deV : Toml → Except String T) (buffer : String) :
    Except Error (Environments T) :=
  match parseText buffer >>= Environments.fromToml deV with
  | .ok envs => .ok envs
  | .error e => .error (Error.fromTomlDeError e)

/-- `Environments::from_reader` (`environments.rs` lines 128-135): the reader
either yields the full buffer or fails with an I/O error (converted by
`From<std::io::Error>`, code `Io`); the buffer then goes through
`toml::from_str`. -/
def Environments.from_reader {T : Type} (parseText : String → Except String Toml)
    (deV : Toml → Except String T) (reader : Except String String) :
    Except Error (Environments T) :=
  match reader with
  | .error e => .error (Error.fromIoError e)
  | .ok buffer => Environments.fromStr parseText deV buffer

/-- `Environments::from_path` (`environments.rs` lines 113-125): open and read
the file at `path` (modelled by the injected file system `fs`); an open or
read failure becomes the `Io` library error, otherwise the buffer goes
through `toml::from_str`. -/
def Environments.from_path {T : Type} (parseText : String → Except String Toml)
    (deV : Toml → Except String T) (fs : String → Except String String)
    (path : String) : Except Error (Environments T) :=
  match fs path with
  | .ok buffer => Environments.fromStr parseText deV buffer
  | .error e => .error (Error.fromIoError e)

/-- `Environments::current_from` (`environments.rs` lines 143-150): read the
external variable `var` (the process environment is the injected `vars`; a
read failure converts via `From<std::env::VarError>`), parse its value with
`TryFrom<String>` (a parse failure is replaced by
`Error::invalid_current_environment(var)`), and index the map (an absent key
yields the same `invalid_current_environment` error). -/
def Environments.current_from {T : Type} (self : Environments T)
    (vars : String → Except VarError String) (var : String) : Except Error T :=
  match vars var with
  | .error e => .error (Error.fromVarError e)
  | .ok value =>
    match Environment.tryFromString value with
    | .error _ => .error (Error.invalid_current_environment var)
    | .ok environment =>
      match self.envs.get environment with
      | some v => .ok v
      | none => .error (Error.invalid_current_environment var)

/-- `Environments::current` (`environments.rs` lines 137-140): look up through
the variable named `"env"`. -/
def Environments.current {T : Type} (self : Environments T)
    (vars : String → Except VarError String) : Except Error T :=
  self.current_from vars "env"

/-- Derived `Serialize for Environments` down to the TOML tree: one `envs`
table whose entries are the map's bindings in ascending key order (the
`BTreeMap` iteration order), each key rendered through `Serialize for
Environment` (`environment.rs` lines 57-64, the `Display` string) and each
value through the caller-supplied serializer. The tree-to-text encoder is the
external codec. -/
def Environments.toToml {T : Type} (serV : T → Toml) (self : Environments T) : Toml :=
  .table [("envs", .table (self.envs.toList.map (fun kv => (kv.1.render, serV kv.2))))]

/-- `PathBuf::join` with a relative file name: push the component, inserting
a separator unless the base is empty or already ends with one. -/
def pathJoin (dir file : String) : String :=
  if dir = "" then file
  else if dir.endsWith "/" then dir ++ file
  else dir ++ "/" ++ file

/-- `TryFrom<&ArgMatches> for Environments` (`environments.rs` lines 153-169):
`matches.value_of("env_path")` is the optional flag value; when present the
effective path is that directory joined with `"env.toml"`, otherwise it is
`"env.toml"` in the default (current) directory; then delegate to
`from_path`. -/
def Environments.tryFromMatches {T : Type} (parseText : String → Except String Toml)
    (deV : Toml → Except String T) (fs : String → Except String String)
    (envPathFlag : Option String) : Except Error (Environments T) :=
  let envPath := match envPathFlag with
    | some p => pathJoin p "env.toml"
    | none => "env.toml"
  Environments.from_path parseText deV fs envPath

/-- Modelled from the spec: the four-way error taxonomy of spec section 7
("kind, not implementation type"). `VariableUnset` is the class of errors
wrapping an external-variable read failure (`ErrSource::Var`); `Io` and
`Parse` follow the implementation's code of the same name; every remaining
error — all of which concern environment keys — is `Environment`. -/
inductive ErrKind where
  | Environment
  | Parse
  | Io
  | VariableUnset
deriving DecidableEq, Repr

/-- Modelled from the spec: classify an implementation `Error` into the
spec's taxonomy. -/
def Error.kind (e : Error) : ErrKind :=
  match e.source with
  | some (.Var _) => .VariableUnset
  | _ =>
    match e.code with
    | .Io => .Io
    | .Parse => .Parse
    | _ => .Environment

/-- The value type of the repository's doc-test and test suite
(`environments.rs` lines 206-212): a required `name` and an optional `key`. -/
structure RuntimeEnv where
  name : String
  key : Option String
deriving DecidableEq, Repr

/-- Serde-derived deserialization of `RuntimeEnv` from a TOML sub-table: the
`name` field is required and must be a string; the `key` field is optional. -/
def RuntimeEnv.deserialize : Toml → Except String RuntimeEnv
  | .table kvs =>
    match kvs.lookup "name" with
    | some (.str n) =>
      match kvs.lookup "key" with
      | some (.str k) => .ok ⟨n, some k⟩
      | some _ => .error "invalid type for field key"
      | none => .ok ⟨n, none⟩
    | some _ => .error "invalid type for field name"
    | none => .error "missing field name"
  | _ => .error "invalid type: expected a table"

/-- Serde-derived serialization of `RuntimeEnv` to a TOML sub-table: `name`
always, `key` only when present. -/
def RuntimeEnv.serialize (r : RuntimeEnv) : Toml :=
  .table ([("name", .str r.name)] ++
    (match r.key with
     | some k => [("key", .str k)]
     | none => []))

/-- The canonical five-table document of the doc-test and the test suite
(`environments.rs` lines 189-204), as a decoded TOML tree: `prod` alone
carries the optional `key` field. -/
def canonicalDoc : Toml :=
  .table [("envs", .table
    [("prod", .table [("name", .str "Production"), ("key", .str "abcd-123-efg-45")]),
     ("stage", .table [("name", .str "Stage")]),
     ("test", .table [("name", .str "Test")]),
     ("dev", .table [("name", .str "Development")]),
     ("local", .table [("name", .str "Local")])])]

/-- A process-environment model with the single variable `var` set to
`value`; every other variable is unset. -/
def singleVar (var value : String) : String → Except VarError String :=
  fun q => if q = var then .ok value else .error .notPresent

theorem tryFromStr_render (k : Environment) :
    Environment.tryFromStr k.render = .ok k := by
  cases k <;> rfl

theorem deserialize_render (k : Environment) :
    Environment.deserialize k.render = .ok k := by
  cases k <;> rfl

/-- If any entry of the `envs` table has a key the key type rejects or a
value the value deserializer rejects, the map deserialization aborts with an
error, whatever the accumulator. -/
theorem deserializeEnvMapFrom_error_of_mem {T : Type} (deV : Toml → Except String T)
    {ks : String} {tv : Toml}
    (hfail : (∃ e, Environment.deserialize ks = .error e) ∨ (∃ e, deV tv = .error e)) :
    ∀ (entries : List (String × Toml)) (acc : EnvMap T), (ks, tv) ∈ entries →
      ∃ e, deserializeEnvMapFrom deV acc entries = .error e := by
  intro entries
  induction entries with
  | nil =>
    intro acc hmem
    exact absurd hmem (List.not_mem_nil _)
  | cons hd rest ih =>
    intro acc hmem
    obtain ⟨ks0, tv0⟩ := hd
    cases hk : Environment.deserialize ks0 with
    | error e => exact ⟨e, by simp [deserializeEnvMapFrom, hk]⟩
    | ok k =>
      cases hv : deV tv0 with
      | error e => exact ⟨e, by simp [deserializeEnvMapFrom, hk, hv]⟩
      | ok v =>
        have hmem' : (ks, tv) ∈ rest := by
          rcases List.mem_cons.mp hmem with heq | h
          · exfalso
            injection heq with h1 h2
            subst h1
            subst h2
            rcases hfail with ⟨e, he⟩ | ⟨e, he⟩
            · simp [he] at hk
            · simp [he] at hv
          · exact h
        obtain ⟨e, he⟩ := ih (acc.insert k v) hmem'
        exact ⟨e, by simp [deserializeEnvMapFrom, hk, hv, he]⟩

/-- Every key is enumerated by `envOrder`. -/
theorem mem_envOrder (k : Environment) : k ∈ envOrder := by
  cases k <;> simp [envOrder]

/-- `envOrder` is strictly ascending in the declaration order. -/
theorem envOrder_pairwise :
    List.Pairwise (fun a b : Environment => a.toNat < b.toNat) envOrder := by
  decide

/-- The keys of a map's iteration list appear in strictly ascending
declaration order. -/
theorem toList_keys_pairwise {T : Type} (m : EnvMap T) :
    List.Pairwise (fun p q : Environment × T => p.1.toNat < q.1.toNat) m.toList := by
  rw [EnvMap.toList, List.pairwise_filterMap]
  refine envOrder_pairwise.imp ?_
  intro a b hab p hp q hq
  rw [Option.mem_def] at hp hq
  rcases Option.map_eq_some'.mp hp with ⟨v, _, hpv⟩
  rcases Option.map_eq_some'.mp hq with ⟨w, _, hqw⟩
  rw [← hpv, ← hqw]
  exact hab

/-- Pointwise-equal maps iterate to the same list. -/
theorem toList_congr {T : Type} {m m' : EnvMap T} (h : ∀ k, m k = m' k) :
    m.toList = m'.toList :=
  List.filterMap_congr (fun k _ => by rw [h k])

/-- Deserializing the serialized bindings of `m` drawn from the key list `l`
succeeds and produces, over the accumulator `acc`, exactly the bindings of
`m` at the keys of `l`, provided the value codec round-trips. -/
theorem deserializeEnvMapFrom_serialized {T : Type} (deV : Toml → Except String T)
    (serV : T → Toml) (hV : ∀ v, deV (serV v) = .ok v) (m : EnvMap T) :
    ∀ (l : List Environment) (acc : EnvMap T),
      ∃ m', deserializeEnvMapFrom deV acc
          ((l.filterMap (fun k => (m k).map (fun v => (k, v)))).map
            (fun kv => (kv.1.render, serV kv.2))) = .ok m' ∧
        ∀ q, m' q = if q ∈ l ∧ (m q).isSome = true then m q else acc q := by
  intro l
  induction l with
  | nil =>
    intro acc
    exact ⟨acc, rfl, by simp⟩
  | cons k t ih =>
    intro acc
    cases hm : m k with
    | none =>
      obtain ⟨m', hm', hq⟩ := ih acc
      refine ⟨m', by simpa [List.filterMap_cons, hm] using hm', ?_⟩
      intro q
      rw [hq q]
      by_cases hqk : q = k
      · subst hqk
        simp [hm]
      · simp [List.mem_cons, hqk]
    | some v =>
      obtain ⟨m', hm', hq⟩ := ih (acc.insert k v)
      refine ⟨m', ?_, ?_⟩
      · simpa [List.filterMap_cons, hm, deserializeEnvMapFrom, deserialize_render, hV]
          using hm'
      · intro q
        rw [hq q]
        by_cases hqk : q = k
        · subst hqk
          simp [hm, EnvMap.insert]
        · simp [List.mem_cons, hqk, EnvMap.insert]

/-- Serialize-then-deserialize rebuilds the very same map (pointwise),
provided the value codec round-trips. -/
theorem fromToml_toToml {T : Type} (deV : Toml → Except String T) (serV : T → Toml)
    (hV : ∀ v, deV (serV v) = .ok v) (m : Environments T) :
    ∃ m' : Environments T, Environments.fromToml deV (m.toToml serV) = .ok m' ∧
      ∀ q, m'.envs q = m.envs q := by
  obtain ⟨f, hf, hq⟩ := deserializeEnvMapFrom_serialized deV serV hV m.envs envOrder
    EnvMap.empty
  refine ⟨⟨f⟩, ?_, ?_⟩
  · simp [Environments.fromToml, Environments.toToml, EnvMap.toList, List.lookup, hf]
  · intro q
    show f q = m.envs q
    rw [hq q]
    rcases hmq : m.envs q with _ | v
    · simp [mem_envOrder q, hmq, EnvMap.empty]
    · simp [mem_envOrder q, hmq]

end Tomlenv

namespace Tomlenv

/-- C3: rendering any of the five built-in variants to its canonical
lowercase string and parsing that string back with `TryFrom<&str>` yields
`Ok` of the same variant — render is an exact left-inverse of parse. -/
theorem parse_render_roundtrip :
    ∀ k : Environment, Environment.tryFromStr k.render = .ok k := by
  intro k
  cases k <;> rfl

/-- C7: every string outside the canonical set is rejected by
`TryFrom<&str> for Environment` with the `invalid_runtime_environment` error,
whose code is `Env` (the Environment kind) and whose reason records the
offending string; matching is exact, so "Prod" and " prod" are rejected. -/
theorem parse_rejects_noncanonical :
    ∀ s : String, s ∉ (["prod", "stage", "test", "dev", "local"] : List String) →
      Environment.tryFromStr s = .error (Error.invalid_runtime_environment s) ∧
      (Error.invalid_runtime_environment s).code = ErrCode.Env ∧
      (Error.invalid_runtime_environment s).kind = ErrKind.Environment ∧
      (Error.invalid_runtime_environment s).reason =
        "invalid runtime environment '" ++ s ++ "'" := by
  intro s h
  simp only [List.mem_cons, List.not_mem_nil, or_false, not_or] at h
  obtain ⟨h1, h2, h3, h4, h5⟩ := h
  exact ⟨by simp [Environment.tryFromStr, h1, h2, h3, h4, h5], rfl, rfl, rfl⟩

/-- Witness for C7 at the concrete non-canonical strings "Prod" (wrong case)
and " prod" (untrimmed). -/
theorem parse_rejects_noncanonical_witness :
    Environment.tryFromStr "Prod" = .error (Error.invalid_runtime_environment "Prod") ∧
    Environment.tryFromStr " prod" = .error (Error.invalid_runtime_environment " prod") :=
  ⟨(parse_rejects_noncanonical "Prod" (by decide)).1,
   (parse_rejects_noncanonical " prod" (by decide)).1⟩

/-- C10: the three string-to-key conversion paths agree on every string —
`TryFrom<String>` coincides with `TryFrom<&str>`, and the serde key
deserializer succeeds with the same variant exactly when `TryFrom<&str>`
does, and fails exactly when it fails. -/
theorem string_conversions_agree :
    ∀ s : String,
      Environment.tryFromString s = Environment.tryFromStr s ∧
      ((∃ k, Environment.deserialize s = .ok k ∧ Environment.tryFromStr s = .ok k) ∨
       ((∃ e, Environment.deserialize s = .error e) ∧
        (∃ e, Environment.tryFromStr s = .error e))) := by
  intro s
  refine ⟨rfl, ?_⟩
  cases h : Environment.tryFromStr s with
  | ok k => exact Or.inl ⟨k, by simp [Environment.deserialize, h], rfl⟩
  | error e => exact Or.inr ⟨⟨e.display, by simp [Environment.deserialize, h]⟩, e, rfl⟩

/-- C1: whenever the external variable `var` holds a string that parses to a
key present in the loaded map, `current_from` returns `Ok` of exactly the
value stored under that key (the embedding returns the stored value itself;
the borrow-only, no-copy nature of the Rust reference has no counterpart in
a value semantics); `current` is `current_from` at the variable `"env"`; and
on the canonical five-table document, with `env` set to each of the five
canonical strings in turn, `current` returns the respective entry unchanged —
`prod` with its optional field populated, the other four with it absent. -/
theorem current_returns_matching_entry :
    (∀ (T : Type) (m : Environments T) (vars : String → Except VarError String)
       (var value : String) (k : Environment) (v : T),
       vars var = .ok value →
       Environment.tryFromString value = .ok k →
       m.envs.get k = some v →
       m.current_from vars var = .ok v) ∧
    (∀ (T : Type) (m : Environments T) (vars : String → Except VarError String),
       m.current vars = m.current_from vars "env") ∧
    (∃ m : Environments RuntimeEnv,
       Environments.fromToml RuntimeEnv.deserialize canonicalDoc = .ok m ∧
       m.current (singleVar "env" "prod") = .ok ⟨"Production", some "abcd-123-efg-45"⟩ ∧
       m.current (singleVar "env" "stage") = .ok ⟨"Stage", none⟩ ∧
       m.current (singleVar "env" "test") = .ok ⟨"Test", none⟩ ∧
       m.current (singleVar "env" "dev") = .ok ⟨"Development", none⟩ ∧
       m.current (singleVar "env" "local") = .ok ⟨"Local", none⟩) := by
  refine ⟨?_, ?_, ?_⟩
  · intro T m vars var value k v hv hp hg
    simp [Environments.current_from, hv, hp, hg]
  · intro T m vars
    rfl
  · exact ⟨_, rfl, rfl, rfl, rfl, rfl, rfl⟩

/-- Witness for C1 at a concrete map holding one entry under `Test`, with the
variable `env` set to `"test"`. -/
theorem current_returns_matching_entry_witness :
    Environments.current_from (⟨fun k => if k = Environment.Test then some "T" else none⟩ :
        Environments String) (singleVar "env" "test") "env" = .ok "T" :=
  current_returns_matching_entry.1 String
    ⟨fun k => if k = Environment.Test then some "T" else none⟩
    (singleVar "env" "test") "env" "test" .Test "T" rfl rfl rfl

/-- C5: if the current-environment variable is readable but its value is not
a recognized key string, or its value parses to a key absent from the loaded
map, `current_from` fails with `invalid_current_environment` — an error of
the Environment kind, with code `Env`, not `Parse` and not `Io`. The map is
left unchanged: `current_from` consumes the map read-only and returns only
the result (the embedding is a pure function of the map). -/
theorem current_invalid_key_environment_error :
    (∀ (T : Type) (m : Environments T) (vars : String → Except VarError String)
       (var value : String) (e : Error),
       vars var = .ok value →
       Environment.tryFromString value = .error e →
       m.current_from vars var = .error (Error.invalid_current_environment var)) ∧
    (∀ (T : Type) (m : Environments T) (vars : String → Except VarError String)
       (var value : String) (k : Environment),
       vars var = .ok value →
       Environment.tryFromString value = .ok k →
       m.envs.get k = none →
       m.current_from vars var = .error (Error.invalid_current_environment var)) ∧
    (∀ var : String,
       (Error.invalid_current_environment var).kind = ErrKind.Environment ∧
       (Error.invalid_current_environment var).code = ErrCode.Env ∧
       (Error.invalid_current_environment var).code ≠ ErrCode.Parse ∧
       (Error.invalid_current_environment var).code ≠ ErrCode.Io) := by
  refine ⟨?_, ?_, ?_⟩
  · intro T m vars var value e hv hp
    simp [Environments.current_from, hv, hp]
  · intro T m vars var value k hv hp hg
    simp [Environments.current_from, hv, hp, hg]
  · intro var
    exact ⟨rfl, rfl, by simp [Error.invalid_current_environment, Error.new],
      by simp [Error.invalid_current_environment, Error.new]⟩

/-- Witness for C5: the unrecognized value `"blah"`, and the well-formed but
absent key `"local"` against a map populated only at `Prod`. -/
theorem current_invalid_key_environment_error_witness :
    Environments.current_from (⟨fun _ => none⟩ : Environments String)
        (singleVar "env" "blah") "env" =
      .error (Error.invalid_current_environment "env") ∧
    Environments.current_from
        (⟨fun k => if k = Environment.Prod then some "P" else none⟩ : Environments String)
        (singleVar "env" "local") "env" =
      .error (Error.invalid_current_environment "env") :=
  ⟨current_invalid_key_environment_error.1 String ⟨fun _ => none⟩
      (singleVar "env" "blah") "env" "blah"
      (Error.invalid_runtime_environment "blah") rfl rfl,
   current_invalid_key_environment_error.2.1 String
      ⟨fun k => if k = Environment.Prod then some "P" else none⟩
      (singleVar "env" "local") "env" "local" .Local rfl rfl rfl⟩

/-- C6: if the named external variable is not present or not readable,
`current_from` fails with the converted `VarError` — classified as the
VariableUnset kind by the spec taxonomy, preserving the read failure as its
source, and distinct (as a kind and as an error value) from the
Environment-kind `invalid_current_environment` error used for unrecognized
or absent keys. -/
theorem current_unset_variable_error :
    ∀ (T : Type) (m : Environments T) (vars : String → Except VarError String)
      (var : String) (e : VarError),
      vars var = .error e →
      m.current_from vars var = .error (Error.fromVarError e) ∧
      (Error.fromVarError e).kind = ErrKind.VariableUnset ∧
      (Error.fromVarError e).source = some (ErrSource.Var e) ∧
      ErrKind.VariableUnset ≠ ErrKind.Environment ∧
      (∀ var2 : String, Error.fromVarError e ≠ Error.invalid_current_environment var2) := by
  intro T m vars var e hv
  refine ⟨by simp [Environments.current_from, hv], rfl, rfl, by simp, ?_⟩
  intro var2
  simp [Error.fromVarError, Error.invalid_current_environment, Error.new]

/-- Witness for C6: an empty process environment. -/
theorem current_unset_variable_error_witness :
    Environments.current_from (⟨fun _ => none⟩ : Environments String)
        (fun _ => .error .notPresent) "env" =
      .error (Error.fromVarError .notPresent) ∧
    (Error.fromVarError .notPresent).kind = ErrKind.VariableUnset :=
  ⟨(current_unset_variable_error String ⟨fun _ => none⟩
      (fun _ => .error .notPresent) "env" .notPresent rfl).1,
   (current_unset_variable_error String ⟨fun _ => none⟩
      (fun _ => .error .notPresent) "env" .notPresent rfl).2.1⟩

/-- C8: when the file at `path` cannot be opened or read, `from_path` fails
with the converted I/O error — code `Io`, the Io kind — and the underlying
failure is preserved inside the error as its source rather than discarded. -/
theorem from_path_io_error :
    ∀ (T : Type) (parseText : String → Except String Toml)
      (deV : Toml → Except String T) (fs : String → Except String String)
      (path ioErr : String),
      fs path = .error ioErr →
      Environments.from_path parseText deV fs path = .error (Error.fromIoError ioErr) ∧
      (Error.fromIoError ioErr).code = ErrCode.Io ∧
      (Error.fromIoError ioErr).kind = ErrKind.Io ∧
      (Error.fromIoError ioErr).source = some (ErrSource.Io ioErr) := by
  intro T parseText deV fs path ioErr hfs
  exact ⟨by simp [Environments.from_path, hfs], rfl, rfl, rfl⟩

/-- Witness for C8 at a nonexistent path on an empty file system. -/
theorem from_path_io_error_witness :
    Environments.from_path (fun _ => .ok (.table [])) RuntimeEnv.deserialize
        (fun _ => .error "No such file or directory (os error 2)")
        "/nonexistent/env.toml" =
      .error (Error.fromIoError "No such file or directory (os error 2)") :=
  (from_path_io_error RuntimeEnv (fun _ => .ok (.table [])) RuntimeEnv.deserialize
      (fun _ => .error "No such file or directory (os error 2)")
      "/nonexistent/env.toml" "No such file or directory (os error 2)" rfl).1

/-- C9: construction from CLI arguments resolves the effective path as the
flag's directory value joined with `"env.toml"` when the path flag is given,
and as `"env.toml"` in the default (current) directory when it is absent —
the join of the empty default directory with `"env.toml"` — and delegates to
`from_path`, returning its result unchanged. -/
theorem try_from_matches_delegates :
    ∀ (T : Type) (parseText : String → Except String Toml)
      (deV : Toml → Except String T) (fs : String → Except String String)
      (flag : Option String),
      Environments.tryFromMatches parseText deV fs flag =
        Environments.from_path parseText deV fs
          (match flag with
           | some dir => pathJoin dir "env.toml"
           | none => "env.toml") ∧
      pathJoin "" "env.toml" = "env.toml" := by
  intro T parseText deV fs flag
  cases flag <;> exact ⟨rfl, rfl⟩

/-- C2: bulk deserialization from an in-memory buffer is all-or-nothing —
it returns either a whole map or an error whose code is `Parse` (the Parse
kind) — and it does fail whenever the text is not well-formed (the external
parser rejects it), the top-level `envs` wrapper is missing, some table key
string is rejected by the key type's deserializer, or some value sub-document
is rejected by the value deserializer. -/
theorem load_failures_are_parse_errors :
    (∀ (T : Type) (parseText : String → Except String Toml)
       (deV : Toml → Except String T) (buffer : String),
       (∃ m, Environments.from_reader parseText deV (.ok buffer) = .ok m) ∨
       (∃ err, Environments.from_reader parseText deV (.ok buffer) = .error err ∧
          err.code = ErrCode.Parse ∧ err.kind = ErrKind.Parse)) ∧
    (∀ (T : Type) (parseText : String → Except String Toml)
       (deV : Toml → Except String T) (buffer msg : String),
       parseText buffer = .error msg →
       Environments.from_reader parseText deV (.ok buffer) =
         .error (Error.fromTomlDeError msg)) ∧
    (∀ (T : Type) (parseText : String → Except String Toml)
       (deV : Toml → Except String T) (buffer : String) (kvs : List (String × Toml)),
       parseText buffer = .ok (.table kvs) →
       kvs.lookup "envs" = none →
       Environments.from_reader parseText deV (.ok buffer) =
         .error (Error.fromTomlDeError "missing field envs")) ∧
    (∀ (T : Type) (parseText : String → Except String Toml)
       (deV : Toml → Except String T) (buffer : String)
       (kvs entries : List (String × Toml)) (ks : String) (tv : Toml) (e : String),
       parseText buffer = .ok (.table kvs) →
       kvs.lookup "envs" = some (.table entries) →
       (ks, tv) ∈ entries →
       Environment.deserialize ks = .error e →
       ∃ err, Environments.from_reader parseText deV (.ok buffer) = .error err ∧
         err.code = ErrCode.Parse) ∧
    (∀ (T : Type) (parseText : String → Except String Toml)
       (deV : Toml → Except String T) (buffer : String)
       (kvs entries : List (String × Toml)) (ks : String) (tv : Toml) (e : String),
       parseText buffer = .ok (.table kvs) →
       kvs.lookup "envs" = some (.table entries) →
       (ks, tv) ∈ entries →
       deV tv = .error e →
       ∃ err, Environments.from_reader parseText deV (.ok buffer) = .error err ∧
         err.code = ErrCode.Parse) := by
  refine ⟨?_, ?_, ?_, ?_, ?_⟩
  · intro T parseText deV buffer
    cases h : parseText buffer >>= Environments.fromToml deV with
    | ok m =>
      exact Or.inl ⟨m, by simp [Environments.from_reader, Environments.fromStr, h]⟩
    | error e =>
      exact Or.inr ⟨Error.fromTomlDeError e,
        by simp [Environments.from_reader, Environments.fromStr, h], rfl, rfl⟩
  · intro T parseText deV buffer msg hp
    simp [Environments.from_reader, Environments.fromStr, hp, Bind.bind, Except.bind]
  · intro T parseText deV buffer kvs hp hl
    simp [Environments.from_reader, Environments.fromStr, Environments.fromToml, hp, hl,
      Bind.bind, Except.bind]
  · intro T parseText deV buffer kvs entries ks tv e hp hl hmem hk
    obtain ⟨msg, hmsg⟩ := deserializeEnvMapFrom_error_of_mem deV (Or.inl ⟨e, hk⟩)
      entries EnvMap.empty hmem
    exact ⟨Error.fromTomlDeError msg,
      by simp [Environments.from_reader, Environments.fromStr, Environments.fromToml,
        hp, hl, hmsg, Bind.bind, Except.bind], rfl⟩
  · intro T parseText deV buffer kvs entries ks tv e hp hl hmem hv
    obtain ⟨msg, hmsg⟩ := deserializeEnvMapFrom_error_of_mem deV (Or.inr ⟨e, hv⟩)
      entries EnvMap.empty hmem
    exact ⟨Error.fromTomlDeError msg,
      by simp [Environments.from_reader, Environments.fromStr, Environments.fromToml,
        hp, hl, hmsg, Bind.bind, Except.bind], rfl⟩

/-- Witness for C2, exercising each failure cause on concrete inputs: a
parser rejection, a document without the `envs` wrapper, an unrecognized
table key `blah`, and a value sub-document that is a bare string instead of
a table. -/
theorem load_failures_are_parse_errors_witness :
    Environments.from_reader (fun _ => .error "unexpected eof") RuntimeEnv.deserialize
        (.ok "[envs") = .error (Error.fromTomlDeError "unexpected eof") ∧
    Environments.from_reader (fun _ => .ok (.table [])) RuntimeEnv.deserialize
        (.ok "") = .error (Error.fromTomlDeError "missing field envs") ∧
    (∃ err, Environments.from_reader
        (fun _ => .ok (.table [("envs", .table [("blah", .table [])])]))
        RuntimeEnv.deserialize (.ok "[envs.blah]") = .error err ∧
        err.code = ErrCode.Parse) ∧
    (∃ err, Environments.from_reader
        (fun _ => .ok (.table [("envs", .table [("prod", .str "xx")])]))
        RuntimeEnv.deserialize (.ok "prodstr") = .error err ∧
        err.code = ErrCode.Parse) :=
  ⟨load_failures_are_parse_errors.2.1 RuntimeEnv (fun _ => .error "unexpected eof")
      RuntimeEnv.deserialize "[envs" "unexpected eof" rfl,
   load_failures_are_parse_errors.2.2.1 RuntimeEnv (fun _ => .ok (.table []))
      RuntimeEnv.deserialize "" [] rfl rfl,
   load_failures_are_parse_errors.2.2.2.1 RuntimeEnv
      (fun _ => .ok (.table [("envs", .table [("blah", .table [])])]))
      RuntimeEnv.deserialize "[envs.blah]" [("envs", .table [("blah", .table [])])]
      [("blah", .table [])] "blah" (.table [])
      "env: invalid runtime environment 'blah'" rfl rfl
      (List.mem_cons_self _ _) rfl,
   load_failures_are_parse_errors.2.2.2.2 RuntimeEnv
      (fun _ => .ok (.table [("envs", .table [("prod", .str "xx")])]))
      RuntimeEnv.deserialize "prodstr" [("envs", .table [("prod", .str "xx")])]
      [("prod", .str "xx")] "prod" (.str "xx")
      "invalid type: expected a table" rfl rfl
      (List.mem_cons_self _ _) rfl⟩

/-- C4: serialization emits the map's entries in the key type's total order
(the keys of the emitted `envs` table are strictly ascending in declaration
order), and — whenever the caller's value codec round-trips, as serde
requires of it — deserializing what was serialized yields a map equal per
key and per value to the original, so the second serialization is identical
to the first and any (deterministic) text encoder emits byte-identical
output for both. -/
theorem serialize_ordered_roundtrip :
    (∀ (T : Type) (serV : T → Toml) (m : Environments T),
       m.toToml serV =
         .table [("envs",
           .table (m.envs.toList.map (fun kv => (kv.1.render, serV kv.2))))] ∧
       List.Pairwise (fun p q : Environment × T => p.1.toNat < q.1.toNat)
         m.envs.toList) ∧
    (∀ (T : Type) (deV : Toml → Except String T) (serV : T → Toml),
       (∀ v, deV (serV v) = .ok v) →
       ∀ m : Environments T,
         ∃ m', Environments.fromToml deV (m.toToml serV) = .ok m' ∧
           (∀ k, m'.envs.get k = m.envs.get k) ∧
           m'.toToml serV = m.toToml serV ∧
           ∀ encodeText : Toml → String,
             encodeText (m'.toToml serV) = encodeText (m.toToml serV)) := by
  refine ⟨?_, ?_⟩
  · intro T serV m
    exact ⟨rfl, toList_keys_pairwise m.envs⟩
  · intro T deV serV hV m
    obtain ⟨m', hm', hq⟩ := fromToml_toToml deV serV hV m
    have hlist : m'.envs.toList = m.envs.toList := toList_congr hq
    have ht : m'.toToml serV = m.toToml serV := by
      simp [Environments.toToml, hlist]
    exact ⟨m', hm', hq, ht, fun encodeText => by rw [ht]⟩

/-- Witness for C4 at a concrete two-entry map of strings with the identity
string codec. -/
theorem serialize_ordered_roundtrip_witness :
    ∃ m', Environments.fromToml
        (fun t => match t with
          | Toml.str s => Except.ok s
          | Toml.table _ => Except.error "invalid type: expected a string")
        (Environments.toToml Toml.str
          ⟨fun k => if k = Environment.Prod then some "P"
            else if k = Environment.Dev then some "D" else none⟩) = .ok m' ∧
      (∀ k, m'.envs.get k =
        EnvMap.get (fun k => if k = Environment.Prod then some "P"
          else if k = Environment.Dev then some "D" else none) k) ∧
      m'.toToml Toml.str =
        Environments.toToml Toml.str
          ⟨fun k => if k = Environment.Prod then some "P"
            else if k = Environment.Dev then some "D" else none⟩ ∧
      ∀ encodeText : Toml → String,
        encodeText (m'.toToml Toml.str) =
          encodeText (Environments.toToml Toml.str
            ⟨fun k => if k = Environment.Prod then some "P"
              else if k = Environment.Dev then some "D" else none⟩) :=
  serialize_ordered_roundtrip.2 String
    (fun t => match t with
      | Toml.str s => Except.ok s
      | Toml.table _ => Except.error "invalid type: expected a string")
    Toml.str (fun _ => rfl)
    ⟨fun k => if k = Environment.Prod then some "P"
      else if k = Environment.Dev then some "D" else none⟩

end Tomlenv
